import Mathlib

/-!
# Verification of the similar-case fee estimator in `irving_commerce.py`

This development embeds the function `find_similar_cases` (the k-nearest-neighbour
fee estimator of the Irving commercial-permits dashboard) and proves the stated
properties of it.

Modelling notes.

* Machine floats are modelled in two layers.  The executable layer uses `Fq`,
  an exact rational extended with a NaN element; every quantity the pipeline
  compares or returns is either NaN or an exact rational, because the only
  irrational step in the source is the final `np.sqrt`, which is strictly
  monotone and therefore does not affect the selection (`sqrt_reflects_le`
  below makes this precise).  The justification layer uses `FR`, a real number
  extended with NaN and signed infinities following IEEE arithmetic rules for
  the operations the source performs; `calculate_distance` is a line-by-line
  transcription of the source's normalization and distance code into `FR`, and
  `calculate_distance_eq_sqrt_toFR` proves that the executable layer computes
  exactly the square of that quantity.

* pandas semantics used by the source, reflected here:
  `Series.std` is the sample standard deviation (`ddof = 1`, NaN on fewer than
  two values); `DataFrame.nsmallest(k, col)` is documented as equivalent to a
  stable ascending sort on `col` with NaN values placed last, truncated to `k`
  rows; boolean-mask indexing and `dropna` return fresh copies;
  `DataFrame.sample(n)` draws `n` distinct row positions uniformly; the mean of
  an empty series is NaN.

* `DataFrame.sample`'s random draw is modelled by an explicit parameter `sel`,
  the list of drawn row positions; theorems about the sampling branch quantify
  over all draws that are valid for the stated population and sample size.

* The dataset columns are restricted to the ones the estimator reads or
  returns; the untouched remaining columns of the CSV are irrelevant to every
  property proved here.
-/

namespace IrvingPermits

/-! ## The executable scalar type: exact rationals extended with NaN -/

/-- A float-valued quantity of the pipeline: either NaN or an exact rational.
Signed infinities never arise in the executable layer (see `FR` for the layer
where they can, and the lemmas showing they are always absorbed into NaN before
reaching a comparison). -/
inductive Fq where
  | nan : Fq
  | num (q : ℚ) : Fq
deriving DecidableEq, Repr

/-- IEEE addition on `Fq`: NaN is absorbing. -/
def Fq.add : Fq → Fq → Fq
  | Fq.num a, Fq.num b => Fq.num (a + b)
  | _, _ => Fq.nan

/-- IEEE multiplication on `Fq`: NaN is absorbing (in particular `0 * NaN = NaN`,
as in IEEE arithmetic). -/
def Fq.mul : Fq → Fq → Fq
  | Fq.num a, Fq.num b => Fq.num (a * b)
  | _, _ => Fq.nan

/-- Division on `Fq`.  NaN is absorbing, and division by zero yields NaN.
In this development the divisor is zero only in the `0 / 0` configuration
(which is NaN in IEEE arithmetic as well): every division either has an
explicitly nonzero divisor (the total weight, the length of a nonempty list)
or is guarded by a zero test.  The `finite / 0 = ±inf` IEEE case is modelled
faithfully in the `FR` layer below. -/
def Fq.div : Fq → Fq → Fq
  | Fq.num a, Fq.num b => if b = 0 then Fq.nan else Fq.num (a / b)
  | _, _ => Fq.nan

/-- The sort-key order used by pandas when ordering on a float column:
NaN sorts after every value, numbers compare numerically.  This is the
comparison `nsmallest` effectively applies to the `Distance` column. -/
def Fq.le : Fq → Fq → Bool
  | _, Fq.nan => true
  | Fq.nan, Fq.num _ => false
  | Fq.num a, Fq.num b => decide (a ≤ b)

theorem Fq.le_trans : ∀ a b c : Fq, Fq.le a b → Fq.le b c → Fq.le a c := by
  intro a b c hab hbc
  cases a <;> cases b <;> cases c <;> simp_all [Fq.le]
  exact hab.trans hbc

theorem Fq.le_total : ∀ a b : Fq, Fq.le a b || Fq.le b a := by
  intro a b
  cases a <;> cases b <;> simp [Fq.le]
  exact Rat.le_total

/-! ## Column statistics (pandas `mean` and `std`, `ddof = 1`) -/

/-- Arithmetic mean of a rational column. -/
def mean (xs : List ℚ) : ℚ := xs.sum / (xs.length : ℚ)

/-- Sample variance of a column, pandas style (`ddof = 1`): NaN on fewer than
two values, otherwise the sum of squared deviations over `n - 1`.  pandas
`Series.std` is the square root of this quantity; the square root is taken in
the `FR` layer (`stdR`). -/
def sampleVar (xs : List ℚ) : Fq :=
  if xs.length < 2 then Fq.nan
  else Fq.num (((xs.map (fun x => (x - mean xs) ^ 2)).sum) / ((xs.length : ℚ) - 1))

/-- Mean of a float column, as the source's `Series.mean`: NaN on an empty
column (the columns it is applied to never contain NaN themselves, having been
filtered by `dropna`). -/
def meanFq (xs : List ℚ) : Fq :=
  if xs.length = 0 then Fq.nan else Fq.num (mean xs)

/-! ## The data model -/

/-- A dataset row, restricted to the columns `find_similar_cases` reads or
returns.  `valuation` and `fees_paid` are the raw currency strings of the CSV
(`Valuation`, `Fees_Paid`); `valuation_clean` and `fees_paid_clean` are the
numeric columns derived by `load_data`, with `none` standing for NaN. -/
structure Row where
  zip_code : Option String
  permit_type : Option String
  square_feet : Option ℚ
  valuation : Option String
  fees_paid : Option String
  valuation_clean : Option ℚ
  fees_paid_clean : Option ℚ
deriving DecidableEq, Repr

/-- A cell of a returned frame: a nullable string or a nullable numeric. -/
inductive Cell where
  | cs (v : Option String)
  | cq (v : Option ℚ)
deriving DecidableEq, Repr

/-- A returned data frame: a column list and the cell rows. -/
structure Frame where
  cols : List String
  rows : List (List Cell)
deriving DecidableEq, Repr

/-- The projection columns of line 63 of the source:
`closest_cases[['ZIP_Code', 'Permit_Type', 'Square_Feet', 'Valuation', 'Fees_Paid']]`. -/
def displayCols : List String :=
  ["ZIP_Code", "Permit_Type", "Square_Feet", "Valuation", "Fees_Paid"]

/-- All modelled columns of the dataset (the display columns plus the cleaned
numeric columns). -/
def allCols : List String := displayCols ++ ["Valuation_clean", "Fees_Paid_clean"]

/-- The cells of one projected neighbour row: note that the `Valuation` and
`Fees_Paid` entries are the raw currency strings, not the cleaned numerics. -/
def displayCells (r : Row) : List Cell :=
  [Cell.cs r.zip_code, Cell.cs r.permit_type, Cell.cq r.square_feet,
   Cell.cs r.valuation, Cell.cs r.fees_paid]

/-- The cells of one unprojected row (all modelled columns). -/
def allCells (r : Row) : List Cell :=
  displayCells r ++ [Cell.cq r.valuation_clean, Cell.cq r.fees_paid_clean]

/-- The projected frame returned by the weighted branch (line 63). -/
def displayFrame (rs : List Row) : Frame := ⟨displayCols, rs.map displayCells⟩

/-- The unprojected frame returned by the unweighted branch (line 40). -/
def fullFrame (rs : List Row) : Frame := ⟨allCols, rs.map allCells⟩

/-! ## The estimator pipeline -/

/-- Python truthiness of an optional numeric query value, as used by
`1 if sq_ft else 0`: `None` and `0` are falsy, anything else truthy. -/
def truthy (o : Option ℚ) : Bool :=
  match o with
  | none => false
  | some q => decide (q ≠ 0)

/-- Line 30: `df[df['Permit_Type'] == permit_type].dropna(subset=['Fees_Paid_clean'])`.
A pandas `==` comparison with NaN is false, hence the `some` match. -/
def eligibleRows (df : List Row) (pt : String) : List Row :=
  df.filter (fun r => decide (r.permit_type = some pt) && !r.fees_paid_clean.isNone)

/-- Line 42's predicate: non-null on both `Square_Feet` and `Valuation_clean`. -/
def bothDims (r : Row) : Bool :=
  !r.square_feet.isNone && !r.valuation_clean.isNone

/-- Line 42: `filtered_df.dropna(subset=['Square_Feet', 'Valuation_clean'])`. -/
def narrowedRows (df : List Row) (pt : String) : List Row :=
  (eligibleRows df pt).filter bothDims

/-- The `Square_Feet` column of the narrowed set (all entries are non-null). -/
def sqftVals (df : List Row) (pt : String) : List ℚ :=
  (narrowedRows df pt).filterMap (fun r => r.square_feet)

/-- The `Valuation_clean` column of the narrowed set. -/
def valVals (df : List Row) (pt : String) : List ℚ :=
  (narrowedRows df pt).filterMap (fun r => r.valuation_clean)

/-- The squared difference of the z-scores of `x` and `q`, both normalized with
the mean and standard deviation of the column `xs`
(`((x - m)/s - (q - m)/s) ^ 2`).  Written over the squares: the difference of
the z-scores squared is `(x - q) ^ 2 / var` when the variance is nonzero, and
NaN when the variance is zero or undefined (division of zero deviations by a
zero standard deviation).  `zNormDiffSq_spec` proves this agrees exactly with
the line-by-line `FR` transcription of the source. -/
def normDiffSq (xs : List ℚ) (x q : ℚ) : Fq :=
  match sampleVar xs with
  | Fq.nan => Fq.nan
  | Fq.num v => if v = 0 then Fq.nan else Fq.num ((x - q) ^ 2 / v)

/-- Line 54: the squared-distance contribution of the square-footage dimension
for one row (`0` when the dimension is inactive). -/
def sqftContribution (xs : List ℚ) (q1 : Option ℚ) (r : Row) : Fq :=
  if truthy q1 then normDiffSq xs (r.square_feet.getD 0) (q1.getD 0) else Fq.num 0

/-- Line 55: the squared-distance contribution of the valuation dimension. -/
def valContribution (vs : List ℚ) (q2 : Option ℚ) (r : Row) : Fq :=
  if truthy q2 then normDiffSq vs (r.valuation_clean.getD 0) (q2.getD 0) else Fq.num 0

/-- Lines 53-56 without the final `np.sqrt`: the square of the distance the
source assigns to a row, `(w_sq * d_sq + w_val * d_val) / total_weight`.
Ordering rows by this quantity is the same as ordering them by the source's
distance, because the square root is strictly monotone and maps NaN to NaN
(`sqrt_reflects_le`). -/
def rowDistSq (xs vs : List ℚ) (q1 q2 : Option ℚ) (r : Row) : Fq :=
  let wSq : ℚ := if truthy q1 then 1 else 0
  let wVal : ℚ := if truthy q2 then 1 else 0
  Fq.div
    (Fq.add (Fq.mul (Fq.num wSq) (sqftContribution xs q1 r))
            (Fq.mul (Fq.num wVal) (valContribution vs q2 r)))
    (Fq.num (wSq + wVal))

/-- The distance key used for row selection in a given query. -/
def queryDist (df : List Row) (pt : String) (q1 q2 : Option ℚ) : Row → Fq :=
  rowDistSq (sqftVals df pt) (valVals df pt) q1 q2

/-- pandas `nsmallest(k, col)` with the default `keep='first'`: a stable
ascending sort on the key (NaN last, which `Fq.le` builds in) truncated to `k`
rows, as documented (`equivalent to df.sort_values(columns).head(n)`). -/
def nsmallestBy {α : Type} (k : ℕ) (key : α → Fq) (l : List α) : List α :=
  (l.mergeSort (fun a b => Fq.le (key a) (key b))).take k

/-- Line 59: the `k` rows of the narrowed set closest to the query. -/
def closestCases (df : List Row) (pt : String) (q1 q2 : Option ℚ) (k : ℕ) : List Row :=
  nsmallestBy k (queryDist df pt q1 q2) (narrowedRows df pt)

/-- Lines 29-63: the estimator.  Returns the pair (neighbour frame, estimated
fee), with `none` for Python `None`.  `sel` is the list of row positions drawn
by `DataFrame.sample` in the unweighted branch (unused in every other branch). -/
def find_similar_cases (df : List Row) (permit_type : String)
    (sq_ft valuation : Option ℚ) (k : ℕ) (sel : List ℕ) :
    Option Frame × Option Fq :=
  let filtered := eligibleRows df permit_type
  if filtered.isEmpty then (none, none)
  else
    let wSq : ℚ := if truthy sq_ft then 1 else 0
    let wVal : ℚ := if truthy valuation then 1 else 0
    if wSq + wVal = 0 then
      (some (fullFrame (sel.filterMap (fun i => filtered[i]?))),
       some (meanFq (filtered.filterMap (fun r => r.fees_paid_clean))))
    else
      let narrowed := filtered.filter bothDims
      if narrowed.isEmpty then (none, none)
      else
        let closest := closestCases df permit_type sq_ft valuation k
        (some (displayFrame closest),
         some (meanFq (closest.filterMap (fun r => r.fees_paid_clean))))

/-! ## The real-valued IEEE model

`FR` carries exact real values together with NaN and signed infinities, with
the IEEE rules for the operations the source performs.  The normalization and
distance code of lines 47-56 is transcribed into `FR` verbatim
(`calculate_distance` below); the lemmas that follow show the executable `Fq`
pipeline computes exactly the square of that quantity, so ordering by the
`Fq`-valued `rowDistSq` is ordering by the source's distance. -/

/-- An IEEE-style scalar: NaN, a signed infinity, or a finite real. -/
inductive FR where
  | nan : FR
  | inf (pos : Bool) : FR
  | fin (x : ℝ) : FR

/-- IEEE addition. -/
noncomputable def FR.add : FR → FR → FR
  | FR.nan, _ => FR.nan
  | _, FR.nan => FR.nan
  | FR.fin a, FR.fin b => FR.fin (a + b)
  | FR.inf p, FR.fin _ => FR.inf p
  | FR.fin _, FR.inf p => FR.inf p
  | FR.inf p, FR.inf q => if p = q then FR.inf p else FR.nan

/-- IEEE subtraction. -/
noncomputable def FR.sub : FR → FR → FR
  | FR.nan, _ => FR.nan
  | _, FR.nan => FR.nan
  | FR.fin a, FR.fin b => FR.fin (a - b)
  | FR.inf p, FR.fin _ => FR.inf p
  | FR.fin _, FR.inf p => FR.inf (!p)
  | FR.inf p, FR.inf q => if p = q then FR.nan else FR.inf p

open Classical in
/-- IEEE multiplication (`0 * inf = NaN`). -/
noncomputable def FR.mul : FR → FR → FR
  | FR.nan, _ => FR.nan
  | _, FR.nan => FR.nan
  | FR.fin a, FR.fin b => FR.fin (a * b)
  | FR.inf p, FR.fin b =>
      if b = 0 then FR.nan else if 0 < b then FR.inf p else FR.inf (!p)
  | FR.fin a, FR.inf p =>
      if a = 0 then FR.nan else if 0 < a then FR.inf p else FR.inf (!p)
  | FR.inf p, FR.inf q => FR.inf (p == q)

open Classical in
/-- IEEE division (`0 / 0 = NaN`, `a / 0 = ±inf` for `a ≠ 0`,
`a / ±inf = 0`). -/
noncomputable def FR.div : FR → FR → FR
  | FR.nan, _ => FR.nan
  | _, FR.nan => FR.nan
  | FR.fin a, FR.fin b =>
      if b = 0 then (if a = 0 then FR.nan else FR.inf (decide (0 < a)))
      else FR.fin (a / b)
  | FR.inf p, FR.fin b => if 0 ≤ b then FR.inf p else FR.inf (!p)
  | FR.fin _, FR.inf _ => FR.fin 0
  | FR.inf _, FR.inf _ => FR.nan

open Classical in
/-- IEEE square root (`np.sqrt`): NaN on NaN and on negative arguments. -/
noncomputable def FR.sqrt : FR → FR
  | FR.nan => FR.nan
  | FR.inf p => if p then FR.inf true else FR.nan
  | FR.fin x => if x < 0 then FR.nan else FR.fin (Real.sqrt x)

/-- The embedding of the executable scalars into the IEEE model. -/
noncomputable def toFR : Fq → FR
  | Fq.nan => FR.nan
  | Fq.num q => FR.fin (q : ℝ)

/-- The sort order on actual (square-rooted) distances that pandas applies when
ordering a float column: NaN sorts after everything, finite values compare
numerically, infinities at the ends. -/
def FR.keyLe : FR → FR → Prop
  | _, FR.nan => True
  | FR.nan, _ => False
  | FR.fin a, FR.fin b => a ≤ b
  | FR.inf p, FR.fin _ => p = false
  | FR.fin _, FR.inf p => p = true
  | FR.inf p, FR.inf q => p = false ∨ q = true

/-! ## Statistics lemmas -/

theorem sum_nonneg_eq_zero {l : List ℚ} (h0 : ∀ x ∈ l, 0 ≤ x) (hs : l.sum = 0) :
    ∀ x ∈ l, x = 0 := by
  induction l with
  | nil => intro x hx; cases hx
  | cons a t ih =>
      have hat : 0 ≤ a := h0 a (List.mem_cons_self a t)
      have htn : 0 ≤ t.sum := List.sum_nonneg (fun x hx => h0 x (List.mem_cons_of_mem a hx))
      have hsum : a + t.sum = 0 := by simpa using hs
      have ha : a = 0 := by linarith
      have ht : t.sum = 0 := by linarith
      intro x hx
      rcases List.mem_cons.mp hx with rfl | hx
      · exact ha
      · exact ih (fun y hy => h0 y (List.mem_cons_of_mem a hy)) ht x hx

theorem sum_const_list {l : List ℚ} {c : ℚ} (h : ∀ x ∈ l, x = c) :
    l.sum = c * l.length := by
  induction l with
  | nil => simp
  | cons a t ih =>
      have ha : a = c := h a (List.mem_cons_self a t)
      have ht := ih (fun y hy => h y (List.mem_cons_of_mem a hy))
      simp [ha, ht]
      ring

theorem mean_const {l : List ℚ} {c : ℚ} (h : ∀ x ∈ l, x = c) (hne : l ≠ []) :
    mean l = c := by
  have hlen : (l.length : ℚ) ≠ 0 := by
    have : l.length ≠ 0 := fun hc => hne (List.length_eq_zero.mp hc)
    exact_mod_cast this
  rw [mean, sum_const_list h, mul_div_assoc, div_self hlen, mul_one]

theorem sampleVar_num_nonneg {xs : List ℚ} {v : ℚ} (h : sampleVar xs = Fq.num v) :
    0 ≤ v := by
  rw [sampleVar] at h
  split at h
  · cases h
  · rename_i hlen
    have hv : ((xs.map (fun x => (x - mean xs) ^ 2)).sum) / ((xs.length : ℚ) - 1) = v := by
      cases h; rfl
    have hnum : 0 ≤ (xs.map (fun x => (x - mean xs) ^ 2)).sum := by
      apply List.sum_nonneg
      intro q hq
      rcases List.mem_map.mp hq with ⟨x, _, rfl⟩
      positivity
    have hden : 0 ≤ (xs.length : ℚ) - 1 := by
      have : 2 ≤ xs.length := not_lt.mp hlen
      have : (2 : ℚ) ≤ (xs.length : ℚ) := by exact_mod_cast this
      linarith
    rw [← hv]
    exact div_nonneg hnum hden

theorem sampleVar_num_zero_mem {xs : List ℚ} (h : sampleVar xs = Fq.num 0) :
    ∀ y ∈ xs, y = mean xs := by
  rw [sampleVar] at h
  split at h
  · cases h
  · rename_i hlen
    have hv : ((xs.map (fun x => (x - mean xs) ^ 2)).sum) / ((xs.length : ℚ) - 1) = 0 := by
      injection h
    have hden : (xs.length : ℚ) - 1 ≠ 0 := by
      have : 2 ≤ xs.length := not_lt.mp hlen
      have h2 : (2 : ℚ) ≤ (xs.length : ℚ) := by exact_mod_cast this
      intro hc
      rw [sub_eq_zero] at hc
      rw [hc] at h2
      norm_num at h2
    have hsum : (xs.map (fun x => (x - mean xs) ^ 2)).sum = 0 :=
      (div_eq_zero_iff.mp hv).resolve_right hden
    intro y hy
    have hy2 : (y - mean xs) ^ 2 = 0 := by
      refine sum_nonneg_eq_zero ?_ hsum _ (List.mem_map_of_mem _ hy)
      intro q hq
      rcases List.mem_map.mp hq with ⟨x, _, rfl⟩
      positivity
    have := (pow_eq_zero_iff (by norm_num : (2 : ℕ) ≠ 0)).mp hy2
    linarith [sub_eq_zero.mp this]

theorem sampleVar_const {xs : List ℚ} {c : ℚ} (h : ∀ y ∈ xs, y = c) :
    sampleVar xs = Fq.nan ∨ sampleVar xs = Fq.num 0 := by
  rw [sampleVar]
  split
  · exact Or.inl rfl
  · rename_i hlen
    right
    have hne : xs ≠ [] := by
      intro hc; rw [hc] at hlen; simp at hlen
    have hmean : mean xs = c := mean_const h hne
    have hz : (xs.map (fun x => (x - mean xs) ^ 2)).sum = 0 := by
      apply List.sum_eq_zero
      intro q hq
      rcases List.mem_map.mp hq with ⟨x, hx, rfl⟩
      rw [h x hx, hmean]
      ring
    rw [hz, zero_div]

/-! ## Line-by-line transcription of the normalization and distance code -/

/-- pandas `Series.std` (lines 47-48, 50-51): the square root of the sample
variance. -/
noncomputable def stdR (xs : List ℚ) : FR := FR.sqrt (toFR (sampleVar xs))

/-- The z-score of a value against the column `xs`:
`(value - mean) / std` (lines 47-48 for rows, 50-51 for the query). -/
noncomputable def zNorm (xs : List ℚ) (x : ℚ) : FR :=
  FR.div (FR.sub (FR.fin (x : ℝ)) (FR.fin ((mean xs : ℚ) : ℝ))) (stdR xs)

/-- Lines 50-56, transcribed: `calculate_distance` for a row whose
`Square_Feet` is `x` and whose `Valuation_clean` is `v`, for a query
`(sq_ft, valuation) = (q1, q2)`.  The query z-scores are `None` when the
corresponding query value is falsy (line 50-51); a `None` query z-score
contributes a literal `0` (lines 54-55); the result is
`np.sqrt((w_sq * d_sq + w_val * d_val) / total_weight)` (line 56). -/
noncomputable def calculate_distance (xs vs : List ℚ) (q1 q2 : Option ℚ)
    (x v : ℚ) : FR :=
  let wSq : ℚ := if truthy q1 then 1 else 0
  let wVal : ℚ := if truthy q2 then 1 else 0
  let sqftNormQ : Option FR := if truthy q1 then some (zNorm xs (q1.getD 0)) else none
  let valNormQ : Option FR := if truthy q2 then some (zNorm vs (q2.getD 0)) else none
  let dSq : FR :=
    match sqftNormQ with
    | some t => FR.mul (FR.sub (zNorm xs x) t) (FR.sub (zNorm xs x) t)
    | none => FR.fin 0
  let dVal : FR :=
    match valNormQ with
    | some t => FR.mul (FR.sub (zNorm vs v) t) (FR.sub (zNorm vs v) t)
    | none => FR.fin 0
  FR.sqrt (FR.div
    (FR.add (FR.mul (FR.fin (wSq : ℝ)) dSq) (FR.mul (FR.fin (wVal : ℝ)) dVal))
    (FR.fin ((wSq + wVal : ℚ) : ℝ)))

/-- The distance exactly as the specification words it: for each active
dimension the squared z-score difference between row and query (normalized
with the same mean and standard deviation), inactive dimensions absent, and
the distance the square root of the average of the active squared
distances. -/
noncomputable def spec_distance (xs vs : List ℚ) (q1 q2 : Option ℚ)
    (x v : ℚ) : FR :=
  let ds : List FR :=
    (if truthy q1 then
      [FR.mul (FR.sub (zNorm xs x) (zNorm xs (q1.getD 0)))
              (FR.sub (zNorm xs x) (zNorm xs (q1.getD 0)))] else []) ++
    (if truthy q2 then
      [FR.mul (FR.sub (zNorm vs v) (zNorm vs (q2.getD 0)))
              (FR.sub (zNorm vs v) (zNorm vs (q2.getD 0)))] else [])
  FR.sqrt (FR.div (ds.foldr FR.add (FR.fin 0)) (FR.fin (ds.length : ℝ)))

/-! ## Fidelity of the executable layer -/

theorem FR.mul_fin_one (a : FR) : FR.mul (FR.fin 1) a = a := by
  cases a with
  | nan => rfl
  | inf p => simp [FR.mul]
  | fin x => simp [FR.mul]

theorem FR.add_fin_zero (a : FR) : FR.add a (FR.fin 0) = a := by
  cases a with
  | nan => rfl
  | inf p => rfl
  | fin x => simp [FR.add]

/-- The squared z-score difference of the source agrees with the executable
`normDiffSq`, for any row value `x` drawn from the column itself. -/
theorem zNormDiffSq_spec (xs : List ℚ) (x q : ℚ) (hx : x ∈ xs) :
    FR.mul (FR.sub (zNorm xs x) (zNorm xs q)) (FR.sub (zNorm xs x) (zNorm xs q))
      = toFR (normDiffSq xs x q) := by
  rcases hvar : sampleVar xs with _ | v
  · -- standard deviation undefined (fewer than two rows): everything is NaN
    simp only [zNorm, stdR, hvar, toFR, normDiffSq]
    simp [FR.sqrt, FR.div, FR.sub, FR.mul]
  · by_cases hv0 : v = 0
    · -- zero variance: all rows equal the mean, `0 / 0` gives NaN
      subst hv0
      have hxm : x = mean xs := sampleVar_num_zero_mem hvar x hx
      simp only [zNorm, stdR, hvar, toFR, normDiffSq]
      have hsq : FR.sqrt (FR.fin ((0 : ℚ) : ℝ)) = FR.fin 0 := by
        simp [FR.sqrt]
      rw [hsq]
      have hsub : FR.sub (FR.fin (x : ℝ)) (FR.fin ((mean xs : ℚ) : ℝ)) = FR.fin 0 := by
        rw [FR.sub, hxm]
        norm_num
      rw [hsub]
      have hdiv : FR.div (FR.fin 0) (FR.fin 0) = FR.nan := by
        simp [FR.div]
      rw [hdiv]
      simp [FR.div, FR.sub, FR.mul]
    · -- positive variance: plain finite arithmetic
      have hvpos : 0 < v := lt_of_le_of_ne (sampleVar_num_nonneg hvar) (Ne.symm hv0)
      have hvposR : (0 : ℝ) < (v : ℝ) := by exact_mod_cast hvpos
      have hs : Real.sqrt (v : ℝ) ≠ 0 := ne_of_gt (Real.sqrt_pos.mpr hvposR)
      have hsq : stdR xs = FR.fin (Real.sqrt (v : ℝ)) := by
        simp only [stdR, hvar, toFR, FR.sqrt]
        rw [if_neg (not_lt.mpr hvposR.le)]
      simp only [zNorm, hsq, FR.sub, FR.div]
      rw [if_neg hs, if_neg hs]
      simp only [FR.sub, FR.mul, normDiffSq, hvar]
      rw [if_neg hv0]
      simp only [toFR, FR.fin.injEq]
      have hss : Real.sqrt (v : ℝ) * Real.sqrt (v : ℝ) = (v : ℝ) :=
        Real.mul_self_sqrt hvposR.le
      push_cast
      field_simp
      ring_nf

theorem FR.fin_zero_add (a : FR) : FR.add (FR.fin 0) a = a := by
  cases a with
  | nan => rfl
  | inf p => rfl
  | fin x => simp [FR.add]

theorem FR.mul_fin_zero : FR.mul (FR.fin 0) (FR.fin 0) = FR.fin 0 := by
  simp [FR.mul]

theorem toFR_add (a b : Fq) : toFR (Fq.add a b) = FR.add (toFR a) (toFR b) := by
  cases a <;> cases b <;> simp [Fq.add, FR.add, toFR]

theorem toFR_mul_num (w : ℚ) (d : Fq) :
    toFR (Fq.mul (Fq.num w) d) = FR.mul (FR.fin ((w : ℚ) : ℝ)) (toFR d) := by
  cases d <;> simp [Fq.mul, FR.mul, toFR]

theorem toFR_div_num (a : Fq) (W : ℚ) (hW : W ≠ 0) :
    toFR (Fq.div a (Fq.num W)) = FR.div (toFR a) (FR.fin ((W : ℚ) : ℝ)) := by
  have hWR : ((W : ℚ) : ℝ) ≠ 0 := by exact_mod_cast hW
  cases a with
  | nan => simp [Fq.div, FR.div, toFR]
  | num q => simp [Fq.div, FR.div, toFR, hW, hWR]

/-- The nonnegative-or-NaN values: the range of every squared quantity of the
pipeline. -/
def Fq.nonneg : Fq → Prop
  | Fq.nan => True
  | Fq.num q => 0 ≤ q

/-- Ordering the source's distances (square roots) with the NaN-last order is
the same as ordering the executable squared distances: the square root is
strictly monotone on nonnegative arguments and maps NaN to NaN.  This is the
justification for `nsmallestBy` comparing `rowDistSq` values directly. -/
theorem sqrt_reflects_le (a b : Fq) (ha : a.nonneg) (hb : b.nonneg) :
    FR.keyLe (FR.sqrt (toFR a)) (FR.sqrt (toFR b)) ↔ Fq.le a b = true := by
  cases a with
  | nan =>
      cases b with
      | nan => simp [toFR, FR.sqrt, FR.keyLe, Fq.le]
      | num q =>
          have hq : ¬ ((q : ℝ) < 0) := by
            push_neg
            exact_mod_cast hb
          simp [toFR, FR.sqrt, FR.keyLe, Fq.le, hq]
  | num p =>
      have hp : ¬ ((p : ℝ) < 0) := by
        push_neg
        exact_mod_cast ha
      cases b with
      | nan => simp [toFR, FR.sqrt, FR.keyLe, Fq.le, hp]
      | num q =>
          have hq : ¬ ((q : ℝ) < 0) := by
            push_neg
            exact_mod_cast hb
          have hqR : (0 : ℝ) ≤ (q : ℝ) := not_lt.mp hq
          simp only [toFR, FR.sqrt, if_neg hp, if_neg hq, FR.keyLe, Fq.le]
          rw [Real.sqrt_le_sqrt_iff hqR]
          constructor
          · intro h
            exact decide_eq_true (by exact_mod_cast h)
          · intro h
            exact_mod_cast of_decide_eq_true h

/-- The helper equality for the weighted average: the executable combination
equals the IEEE combination whenever the total weight is nonzero. -/
theorem weighted_toFR (d1 d2 : Fq) (w1 w2 : ℚ) (hW : w1 + w2 ≠ 0) :
    FR.div (FR.add (FR.mul (FR.fin ((w1 : ℚ) : ℝ)) (toFR d1))
                   (FR.mul (FR.fin ((w2 : ℚ) : ℝ)) (toFR d2)))
           (FR.fin ((w1 + w2 : ℚ) : ℝ))
      = toFR (Fq.div (Fq.add (Fq.mul (Fq.num w1) d1) (Fq.mul (Fq.num w2) d2))
                     (Fq.num (w1 + w2))) := by
  rw [toFR_div_num _ _ hW, toFR_add, toFR_mul_num, toFR_mul_num]

/-- The transcription of the source's `calculate_distance` computes exactly the
square root of the executable `rowDistSq`, for every row of the narrowed set. -/
theorem calculate_distance_eq_sqrt_toFR (xs vs : List ℚ) (q1 q2 : Option ℚ)
    (r : Row) (x v : ℚ) (hx : x ∈ xs) (hv : v ∈ vs)
    (hrx : r.square_feet = some x) (hrv : r.valuation_clean = some v) :
    calculate_distance xs vs q1 q2 x v = FR.sqrt (toFR (rowDistSq xs vs q1 q2 r)) := by
  have hdsq := zNormDiffSq_spec xs x (q1.getD 0) hx
  have hdval := zNormDiffSq_spec vs v (q2.getD 0) hv
  rcases h1 : truthy q1 with _ | _ <;> rcases h2 : truthy q2 with _ | _
  · -- both dimensions inactive: 0/0, NaN on both sides
    simp only [calculate_distance, rowDistSq, sqftContribution, valContribution,
      h1, h2, if_false, Bool.false_eq_true]
    have hl : FR.div (FR.add (FR.mul (FR.fin ((0 : ℚ) : ℝ)) (FR.fin 0))
        (FR.mul (FR.fin ((0 : ℚ) : ℝ)) (FR.fin 0))) (FR.fin (((0 : ℚ) + 0 : ℚ) : ℝ))
        = FR.nan := by
      norm_num [FR.mul_fin_zero, FR.add, FR.div]
    have hr : Fq.div (Fq.add (Fq.mul (Fq.num 0) (Fq.num 0)) (Fq.mul (Fq.num 0) (Fq.num 0)))
        (Fq.num (0 + 0)) = Fq.nan := by
      norm_num [Fq.mul, Fq.add, Fq.div]
    rw [hl, hr]
    rfl
  · -- valuation active only
    simp only [calculate_distance, rowDistSq, sqftContribution, valContribution,
      h1, h2, if_false, if_true, Bool.false_eq_true]
    rw [hrv, Option.getD_some, hdval]
    have h0 : (FR.fin 0 : FR) = toFR (Fq.num 0) := by simp [toFR]
    rw [h0, weighted_toFR _ _ 0 1 (by norm_num)]
  · -- square footage active only
    simp only [calculate_distance, rowDistSq, sqftContribution, valContribution,
      h1, h2, if_false, if_true, Bool.false_eq_true]
    rw [hrx, Option.getD_some, hdsq]
    have h0 : (FR.fin 0 : FR) = toFR (Fq.num 0) := by simp [toFR]
    rw [h0, weighted_toFR _ _ 1 0 (by norm_num)]
  · -- both dimensions active
    simp only [calculate_distance, rowDistSq, sqftContribution, valContribution,
      h1, h2, if_true]
    rw [hrx, hrv, Option.getD_some, Option.getD_some, hdsq, hdval]
    rw [weighted_toFR _ _ 1 1 (by norm_num)]

/-- The source's distance formula coincides with the specification's
formulation (the square root of the average of the active squared z-score
distances), whenever at least one dimension is active. -/
theorem calculate_distance_eq_spec (xs vs : List ℚ) (q1 q2 : Option ℚ) (x v : ℚ)
    (hact : (truthy q1 || truthy q2) = true) :
    calculate_distance xs vs q1 q2 x v = spec_distance xs vs q1 q2 x v := by
  rcases h1 : truthy q1 with _ | _ <;> rcases h2 : truthy q2 with _ | _
  · rw [h1, h2] at hact; simp at hact
  · simp only [calculate_distance, spec_distance, h1, h2, if_true, if_false,
      Bool.false_eq_true, List.nil_append, List.foldr, List.length_cons,
      List.length_nil]
    norm_num
    rw [FR.mul_fin_zero, FR.mul_fin_one, FR.fin_zero_add, FR.add_fin_zero]
  · simp only [calculate_distance, spec_distance, h1, h2, if_true, if_false,
      Bool.false_eq_true, List.append_nil, List.foldr, List.length_cons,
      List.length_nil]
    norm_num
    rw [FR.mul_fin_zero, FR.mul_fin_one, FR.add_fin_zero]
  · simp only [calculate_distance, spec_distance, h1, h2, if_true,
      List.cons_append, List.nil_append, List.foldr, List.length_cons,
      List.length_nil]
    norm_num
    rw [FR.mul_fin_one, FR.mul_fin_one, FR.add_fin_zero]

/-! ## Structural lemmas about the pipeline -/

theorem truthy_some_zero : truthy (some 0) = false := rfl

theorem truthy_none : truthy none = false := rfl

theorem mem_eligible {df : List Row} {pt : String} {r : Row}
    (h : r ∈ eligibleRows df pt) :
    r ∈ df ∧ r.permit_type = some pt ∧ r.fees_paid_clean ≠ none := by
  rw [eligibleRows, List.mem_filter] at h
  obtain ⟨hmem, hp⟩ := h
  simp only [Bool.and_eq_true, decide_eq_true_eq, Bool.not_eq_true',
    Option.isNone_eq_false_iff, Option.isSome_iff_ne_none] at hp
  exact ⟨hmem, hp.1, hp.2⟩

theorem mem_narrowed {df : List Row} {pt : String} {r : Row}
    (h : r ∈ narrowedRows df pt) :
    r ∈ eligibleRows df pt ∧ r.square_feet ≠ none ∧ r.valuation_clean ≠ none := by
  rw [narrowedRows, List.mem_filter] at h
  obtain ⟨hmem, hp⟩ := h
  simp only [bothDims, Bool.and_eq_true, Bool.not_eq_true',
    Option.isNone_eq_false_iff, Option.isSome_iff_ne_none] at hp
  exact ⟨hmem, hp.1, hp.2⟩

theorem filterMap_length_of_isSome {α β : Type} {f : α → Option β} {l : List α}
    (h : ∀ a ∈ l, (f a).isSome) :
    (l.filterMap f).length = l.length := by
  induction l with
  | nil => rfl
  | cons a t ih =>
      have ha := h a (List.mem_cons_self a t)
      rcases hfa : f a with _ | b
      · rw [hfa] at ha; simp at ha
      · rw [List.filterMap_cons_some hfa]
        simp only [List.length_cons]
        rw [ih (fun x hx => h x (List.mem_cons_of_mem a hx))]

theorem fees_length_eligible (df : List Row) (pt : String) :
    ((eligibleRows df pt).filterMap (fun r => r.fees_paid_clean)).length
      = (eligibleRows df pt).length := by
  apply filterMap_length_of_isSome
  intro r hr
  have := (mem_eligible hr).2.2
  exact Option.isSome_iff_ne_none.mpr this

theorem closest_subset_narrowed {df : List Row} {pt : String} {q1 q2 : Option ℚ}
    {k : ℕ} {r : Row} (h : r ∈ closestCases df pt q1 q2 k) :
    r ∈ narrowedRows df pt := by
  rw [closestCases, nsmallestBy] at h
  exact List.mem_mergeSort.mp (List.mem_of_mem_take h)

theorem eligible_ne_nil_of_narrowed {df : List Row} {pt : String}
    (h : narrowedRows df pt ≠ []) : eligibleRows df pt ≠ [] := by
  intro hc
  apply h
  rw [narrowedRows, hc]
  rfl

/-- The total weight is nonzero exactly when a dimension is active. -/
theorem total_weight_ne_zero {q1 q2 : Option ℚ} (hact : (truthy q1 || truthy q2) = true) :
    ((if truthy q1 then (1 : ℚ) else 0) + (if truthy q2 then (1 : ℚ) else 0)) ≠ 0 := by
  rcases h1 : truthy q1 <;> rcases h2 : truthy q2 <;> simp_all

theorem total_weight_zero {q1 q2 : Option ℚ} (h1 : truthy q1 = false)
    (h2 : truthy q2 = false) :
    ((if truthy q1 then (1 : ℚ) else 0) + (if truthy q2 then (1 : ℚ) else 0)) = 0 := by
  rw [h1, h2]
  norm_num

/-- The weighted branch of the estimator, spelled out. -/
theorem find_similar_cases_weighted (df : List Row) (pt : String)
    (q1 q2 : Option ℚ) (k : ℕ) (sel : List ℕ)
    (hact : (truthy q1 || truthy q2) = true)
    (hne : narrowedRows df pt ≠ []) :
    find_similar_cases df pt q1 q2 k sel =
      (some (displayFrame (closestCases df pt q1 q2 k)),
       some (meanFq ((closestCases df pt q1 q2 k).filterMap
         (fun r => r.fees_paid_clean)))) := by
  have helig := eligible_ne_nil_of_narrowed hne
  rw [find_similar_cases]
  rw [if_neg (by simpa using helig)]
  rw [if_neg (total_weight_ne_zero hact)]
  rw [if_neg (by simpa [narrowedRows] using hne)]

/-- The unweighted branch of the estimator, spelled out. -/
theorem find_similar_cases_unweighted (df : List Row) (pt : String)
    (q1 q2 : Option ℚ) (k : ℕ) (sel : List ℕ)
    (h1 : truthy q1 = false) (h2 : truthy q2 = false)
    (hne : eligibleRows df pt ≠ []) :
    find_similar_cases df pt q1 q2 k sel =
      (some (fullFrame (sel.filterMap (fun i => (eligibleRows df pt)[i]?))),
       some (meanFq ((eligibleRows df pt).filterMap
         (fun r => r.fees_paid_clean)))) := by
  rw [find_similar_cases]
  rw [if_neg (by simpa using hne)]
  rw [if_pos (total_weight_zero h1 h2)]

/-- With an active dimension but an empty narrowed set, the estimator answers
`(None, None)`. -/
theorem find_similar_cases_empty_narrowed (df : List Row) (pt : String)
    (q1 q2 : Option ℚ) (k : ℕ) (sel : List ℕ)
    (hact : (truthy q1 || truthy q2) = true)
    (hnil : narrowedRows df pt = []) :
    find_similar_cases df pt q1 q2 k sel = (none, none) := by
  rw [find_similar_cases]
  by_cases helig : eligibleRows df pt = []
  · rw [helig]; rfl
  · rw [if_neg (by simpa using helig)]
    rw [if_neg (total_weight_ne_zero hact)]
    rw [if_pos (by simpa [narrowedRows] using hnil)]

theorem closest_length (df : List Row) (pt : String) (q1 q2 : Option ℚ) (k : ℕ) :
    (closestCases df pt q1 q2 k).length = min k (narrowedRows df pt).length := by
  rw [closestCases, nsmallestBy, List.length_take, List.length_mergeSort]

theorem fees_length_closest (df : List Row) (pt : String) (q1 q2 : Option ℚ)
    (k : ℕ) :
    ((closestCases df pt q1 q2 k).filterMap (fun r => r.fees_paid_clean)).length
      = (closestCases df pt q1 q2 k).length := by
  apply filterMap_length_of_isSome
  intro r hr
  have := (mem_eligible (mem_narrowed (closest_subset_narrowed hr)).1).2.2
  exact Option.isSome_iff_ne_none.mpr this

/-! ## Claims -/

/-- C7: when no row both matches the requested permit type and has a non-null
cleaned fee, the estimator returns the absent outcome `(None, None)` rather
than raising. -/
theorem claim_C7_no_match_no_result (df : List Row) (pt : String)
    (q1 q2 : Option ℚ) (k : ℕ) (sel : List ℕ)
    (h : ∀ r ∈ df, ¬(r.permit_type = some pt ∧ r.fees_paid_clean ≠ none)) :
    find_similar_cases df pt q1 q2 k sel = (none, none) := by
  have he : eligibleRows df pt = [] := by
    rw [eligibleRows, List.filter_eq_nil_iff]
    intro r hr
    simp only [Bool.and_eq_true, decide_eq_true_eq, Bool.not_eq_true',
      Option.isNone_eq_false_iff, Option.isSome_iff_ne_none, not_and]
    intro hp hf
    exact h r hr ⟨hp, hf⟩
  rw [find_similar_cases, he]
  rfl

/-- C6: a query value of `0` on either numeric dimension behaves exactly as an
absent value: the estimator's result is identical, on every dataset, sample
draw and `k`. -/
theorem claim_C6_zero_is_absent (df : List Row) (pt : String) (k : ℕ)
    (sel : List ℕ) :
    (∀ q2 : Option ℚ, find_similar_cases df pt (some 0) q2 k sel
        = find_similar_cases df pt none q2 k sel) ∧
    (∀ q1 : Option ℚ, find_similar_cases df pt q1 (some 0) k sel
        = find_similar_cases df pt q1 none k sel) := by
  constructor
  · intro q2
    simp only [find_similar_cases, closestCases, queryDist, rowDistSq,
      sqftContribution, valContribution, nsmallestBy, truthy_some_zero,
      truthy_none, Bool.false_eq_true, if_false]
  · intro q1
    simp only [find_similar_cases, closestCases, queryDist, rowDistSq,
      sqftContribution, valContribution, nsmallestBy, truthy_some_zero,
      truthy_none, Bool.false_eq_true, if_false]

/-- C4: with at least one active dimension, eligibility is narrowed jointly on
both numeric columns: the estimator answers `(None, None)` when the narrowed
set is empty, every selected neighbour has non-null `square_feet` AND non-null
`valuation_clean`, and any returned frame is exactly the projection of the
selected neighbours. -/
theorem claim_C4_joint_narrowing (df : List Row) (pt : String)
    (q1 q2 : Option ℚ) (k : ℕ) (sel : List ℕ)
    (hact : (truthy q1 || truthy q2) = true) :
    (narrowedRows df pt = [] → find_similar_cases df pt q1 q2 k sel = (none, none)) ∧
    (∀ r ∈ closestCases df pt q1 q2 k,
      r.square_feet ≠ none ∧ r.valuation_clean ≠ none) ∧
    (∀ fr, (find_similar_cases df pt q1 q2 k sel).1 = some fr →
      fr = displayFrame (closestCases df pt q1 q2 k)) := by
  refine ⟨fun hnil => find_similar_cases_empty_narrowed df pt q1 q2 k sel hact hnil, ?_, ?_⟩
  · intro r hr
    exact (mem_narrowed (closest_subset_narrowed hr)).2
  · intro fr hfr
    by_cases hne : narrowedRows df pt = []
    · by_cases helig : eligibleRows df pt = []
      · rw [find_similar_cases, helig] at hfr
        cases hfr
      · rw [find_similar_cases, if_neg (by simpa using helig),
          if_neg (total_weight_ne_zero hact),
          if_pos (by simpa [narrowedRows] using hne)] at hfr
        cases hfr
    · rw [find_similar_cases_weighted df pt q1 q2 k sel hact hne] at hfr
      cases hfr
      rfl

/-- The canonical characterization of a stable k-smallest selection: `res` is
the first `k` elements of an arrangement of `l` (tagged with original
positions) that is sorted by the key with ties broken by original position
(`List.enumLE`).  Because position tags are distinct, such an arrangement is
unique, so this pins the result down completely. -/
def IsStableKSelection (k : ℕ) (key : Row → Fq) (l res : List Row) : Prop :=
  ∃ sl : List (ℕ × Row),
    sl.Perm l.enum ∧
    sl.Pairwise (fun a b =>
      List.enumLE (fun r s => Fq.le (key r) (key s)) a b = true) ∧
    res = (sl.map (fun p => p.2)).take k

/-- C5: with at least one active dimension and a non-empty narrowed set, the
estimator returns exactly the `min(k, eligible count)` rows of smallest
distance, in ascending distance order with ties broken by original dataset
order, and `k` larger than the eligible count returns all eligible rows
(a permutation of the narrowed set) rather than an error. -/
theorem claim_C5_k_smallest_selection (df : List Row) (pt : String)
    (q1 q2 : Option ℚ) (k : ℕ) (sel : List ℕ)
    (hact : (truthy q1 || truthy q2) = true)
    (hne : narrowedRows df pt ≠ []) :
    find_similar_cases df pt q1 q2 k sel =
      (some (displayFrame (closestCases df pt q1 q2 k)),
       some (meanFq ((closestCases df pt q1 q2 k).filterMap
         (fun r => r.fees_paid_clean)))) ∧
    (closestCases df pt q1 q2 k).length = min k (narrowedRows df pt).length ∧
    IsStableKSelection k (queryDist df pt q1 q2) (narrowedRows df pt)
      (closestCases df pt q1 q2 k) ∧
    ((narrowedRows df pt).length ≤ k →
      (closestCases df pt q1 q2 k).Perm (narrowedRows df pt)) := by
  have htrans : ∀ a b c : Row,
      Fq.le (queryDist df pt q1 q2 a) (queryDist df pt q1 q2 b) →
      Fq.le (queryDist df pt q1 q2 b) (queryDist df pt q1 q2 c) →
      Fq.le (queryDist df pt q1 q2 a) (queryDist df pt q1 q2 c) :=
    fun a b c hab hbc => Fq.le_trans _ _ _ hab hbc
  have htotal : ∀ a b : Row,
      Fq.le (queryDist df pt q1 q2 a) (queryDist df pt q1 q2 b) ||
      Fq.le (queryDist df pt q1 q2 b) (queryDist df pt q1 q2 a) :=
    fun a b => Fq.le_total _ _
  refine ⟨find_similar_cases_weighted df pt q1 q2 k sel hact hne,
    closest_length df pt q1 q2 k, ?_, ?_⟩
  · refine ⟨(narrowedRows df pt).enum.mergeSort
      (List.enumLE (fun r s => Fq.le (queryDist df pt q1 q2 r) (queryDist df pt q1 q2 s))), ?_, ?_, ?_⟩
    · exact List.mergeSort_perm _ _
    · exact List.sorted_mergeSort
        (List.enumLE_trans htrans) (List.enumLE_total htotal) _
    · rw [closestCases, nsmallestBy]
      have hms := @List.mergeSort_enum Row
        (fun r s => Fq.le (queryDist df pt q1 q2 r) (queryDist df pt q1 q2 s))
        (narrowedRows df pt)
      rw [show (fun p : ℕ × Row => p.2) = (fun p : ℕ × Row => p.snd) from rfl]
      rw [hms]
  · intro hk
    rw [closestCases, nsmallestBy]
    rw [List.take_of_length_le (by rw [List.length_mergeSort]; exact hk)]
    exact List.mergeSort_perm _ _

/-- C2: with no active dimension and a non-empty eligible set, the estimator
returns the rows at the drawn positions (any without-replacement draw of size
`min(k, eligible count)`), and the estimated fee is the mean of
`fees_paid_clean` over the WHOLE eligible set, independent of the sample. -/
theorem claim_C2_unweighted_branch (df : List Row) (pt : String)
    (q1 q2 : Option ℚ) (k : ℕ) (sel : List ℕ)
    (h1 : truthy q1 = false) (h2 : truthy q2 = false)
    (hne : eligibleRows df pt ≠ [])
    (hlen : sel.length = min k (eligibleRows df pt).length)
    (hnd : sel.Nodup)
    (hbound : ∀ i ∈ sel, i < (eligibleRows df pt).length) :
    find_similar_cases df pt q1 q2 k sel =
      (some (fullFrame (sel.filterMap (fun i => (eligibleRows df pt)[i]?))),
       some (Fq.num (mean ((eligibleRows df pt).filterMap
         (fun r => r.fees_paid_clean))))) ∧
    (sel.filterMap (fun i => (eligibleRows df pt)[i]?)).length
      = min k (eligibleRows df pt).length ∧
    (∀ r ∈ sel.filterMap (fun i => (eligibleRows df pt)[i]?),
      r ∈ eligibleRows df pt) ∧
    sel.Nodup := by
  have hfl : ((eligibleRows df pt).filterMap (fun r => r.fees_paid_clean)).length ≠ 0 := by
    rw [fees_length_eligible]
    intro hc
    exact hne (List.length_eq_zero.mp hc)
  refine ⟨?_, ?_, ?_, hnd⟩
  · rw [find_similar_cases_unweighted df pt q1 q2 k sel h1 h2 hne]
    rw [meanFq, if_neg hfl]
  · rw [filterMap_length_of_isSome, hlen]
    intro i hi
    rw [List.getElem?_eq_getElem (hbound i hi)]
    rfl
  · intro r hr
    rcases List.mem_filterMap.mp hr with ⟨i, _, hget⟩
    exact List.getElem?_mem hget

/-- C9: the two result components are absent together: for every query with a
positive `k` (and a size-correct sample draw in the unweighted branch), the
estimator returns either `(None, None)` or a non-empty neighbour frame
together with a non-NaN numeric fee. -/
theorem claim_C9_absent_together (df : List Row) (pt : String)
    (q1 q2 : Option ℚ) (k : ℕ) (sel : List ℕ)
    (hk : 1 ≤ k)
    (hsel : truthy q1 = false → truthy q2 = false →
      sel.length = min k (eligibleRows df pt).length ∧
      ∀ i ∈ sel, i < (eligibleRows df pt).length) :
    find_similar_cases df pt q1 q2 k sel = (none, none) ∨
    (∃ fr q, find_similar_cases df pt q1 q2 k sel = (some fr, some (Fq.num q)) ∧
      fr.rows ≠ []) := by
  by_cases helig : eligibleRows df pt = []
  · left
    rw [find_similar_cases, helig]
    rfl
  · have hnelig : 1 ≤ (eligibleRows df pt).length :=
      List.length_pos.mpr helig
    by_cases hact : (truthy q1 || truthy q2) = true
    · by_cases hnar : narrowedRows df pt = []
      · exact Or.inl (find_similar_cases_empty_narrowed df pt q1 q2 k sel hact hnar)
      · right
        have hlen : (closestCases df pt q1 q2 k).length
            = min k (narrowedRows df pt).length := closest_length df pt q1 q2 k
        have hpos : 1 ≤ (closestCases df pt q1 q2 k).length := by
          rw [hlen]
          exact le_min hk (List.length_pos.mpr hnar)
        have hfees : ((closestCases df pt q1 q2 k).filterMap
            (fun r => r.fees_paid_clean)).length ≠ 0 := by
          rw [fees_length_closest]
          omega
        refine ⟨displayFrame (closestCases df pt q1 q2 k),
          mean ((closestCases df pt q1 q2 k).filterMap (fun r => r.fees_paid_clean)),
          ?_, ?_⟩
        · rw [find_similar_cases_weighted df pt q1 q2 k sel hact hnar]
          rw [meanFq, if_neg hfees]
        · simp only [displayFrame]
          intro hc
          rw [List.map_eq_nil_iff] at hc
          rw [hc] at hpos
          simp at hpos
    · have h1 : truthy q1 = false := by
        rcases hq : truthy q1
        · rfl
        · exfalso; apply hact; rw [hq]; rfl
      have h2 : truthy q2 = false := by
        rcases hq : truthy q2
        · rfl
        · exfalso; apply hact; rw [h1, hq]; rfl
      obtain ⟨hlen, hbound⟩ := hsel h1 h2
      right
      have hfl : ((eligibleRows df pt).filterMap (fun r => r.fees_paid_clean)).length ≠ 0 := by
        rw [fees_length_eligible]
        omega
      have hslen : (sel.filterMap (fun i => (eligibleRows df pt)[i]?)).length
          = min k (eligibleRows df pt).length := by
        rw [filterMap_length_of_isSome, hlen]
        intro i hi
        rw [List.getElem?_eq_getElem (hbound i hi)]
        rfl
      refine ⟨fullFrame (sel.filterMap (fun i => (eligibleRows df pt)[i]?)),
        mean ((eligibleRows df pt).filterMap (fun r => r.fees_paid_clean)), ?_, ?_⟩
      · rw [find_similar_cases_unweighted df pt q1 q2 k sel h1 h2 helig]
        rw [meanFq, if_neg hfl]
      · simp only [fullFrame]
        intro hc
        rw [List.map_eq_nil_iff] at hc
        rw [hc] at hslen
        simp only [List.length_nil] at hslen
        omega

/-- C1: for queries with at least one active dimension, the distance computed
for an eligible row is the square root of the weight-1 average of the active
squared z-score differences (row and query normalized with the same mean and
standard deviation, inactive dimensions contributing 0): the source's
`calculate_distance` equals the specification's formulation, and the
executable pipeline key is exactly its square. -/
theorem claim_C1_distance_formula (xs vs : List ℚ) (q1 q2 : Option ℚ)
    (r : Row) (x v : ℚ)
    (hact : (truthy q1 || truthy q2) = true)
    (hx : x ∈ xs) (hv : v ∈ vs)
    (hrx : r.square_feet = some x) (hrv : r.valuation_clean = some v) :
    calculate_distance xs vs q1 q2 x v = spec_distance xs vs q1 q2 x v ∧
    calculate_distance xs vs q1 q2 x v
      = FR.sqrt (toFR (rowDistSq xs vs q1 q2 r)) :=
  ⟨calculate_distance_eq_spec xs vs q1 q2 x v hact,
   calculate_distance_eq_sqrt_toFR xs vs q1 q2 r x v hx hv hrx hrv⟩

/-! ## Degenerate normalization (zero variance) -/

theorem Fq.add_nan_right (a : Fq) : Fq.add a Fq.nan = Fq.nan := by
  cases a <;> rfl

theorem Fq.add_nan_left (a : Fq) : Fq.add Fq.nan a = Fq.nan := by
  cases a <;> rfl

theorem Fq.mul_num_nan (w : ℚ) : Fq.mul (Fq.num w) Fq.nan = Fq.nan := rfl

theorem Fq.div_nan_left (b : Fq) : Fq.div Fq.nan b = Fq.nan := by
  cases b <;> rfl

/-- A constant column has NaN (undefined) z-scores: the squared z-score
difference is NaN for every pair of values. -/
theorem normDiffSq_nan_of_const {xs : List ℚ} {c : ℚ}
    (hc : ∀ y ∈ xs, y = c) (x q : ℚ) : normDiffSq xs x q = Fq.nan := by
  rcases sampleVar_const hc with h | h
  · rw [normDiffSq, h]
  · rw [normDiffSq, h]
    norm_num

/-- With the square-footage dimension active on a constant column, every row
distance is NaN (the NaN contribution poisons the whole weighted average, even
when the other dimension is active and non-degenerate). -/
theorem rowDistSq_nan_left {xs vs : List ℚ} {q1 q2 : Option ℚ} (r : Row)
    (h1 : truthy q1 = true)
    (hd : normDiffSq xs (r.square_feet.getD 0) (q1.getD 0) = Fq.nan) :
    rowDistSq xs vs q1 q2 r = Fq.nan := by
  rw [rowDistSq, sqftContribution, h1]
  simp only [if_true]
  rw [hd, Fq.mul_num_nan, Fq.add_nan_left, Fq.div_nan_left]

/-- Symmetrically for the valuation dimension. -/
theorem rowDistSq_nan_right {xs vs : List ℚ} {q1 q2 : Option ℚ} (r : Row)
    (h2 : truthy q2 = true)
    (hd : normDiffSq vs (r.valuation_clean.getD 0) (q2.getD 0) = Fq.nan) :
    rowDistSq xs vs q1 q2 r = Fq.nan := by
  rw [rowDistSq, valContribution, h2]
  simp only [if_true]
  rw [hd, Fq.mul_num_nan, Fq.add_nan_right, Fq.div_nan_left]

/-- Ordering by an all-NaN key is a no-op: pandas places the NaN rows after
the (here absent) numeric rows in their original order, so `nsmallest` returns
the first `min(k, n)` rows unchanged. -/
theorem nsmallestBy_const_nan {k : ℕ} {key : Row → Fq} {l : List Row}
    (h : ∀ r ∈ l, key r = Fq.nan) :
    nsmallestBy k key l = l.take k := by
  rw [nsmallestBy, List.mergeSort_of_sorted]
  apply List.pairwise_of_forall_mem_list
  intro a ha b hb
  rw [h a ha, h b hb]
  rfl

/-- A concrete dataset on which all eligible rows share `Square_Feet = 100`. -/
def cRow1 : Row :=
  ⟨some "75061", some "Building", some 100, some "$1,000", some "$100",
   some 1000, some 100⟩

def cRow2 : Row :=
  ⟨some "75062", some "Building", some 100, some "$5,000", some "$200",
   some 5000, some 200⟩

def cRow3 : Row :=
  ⟨some "75063", some "Building", some 100, some "$9,000", some "$300",
   some 9000, some 300⟩

def cDf : List Row := [cRow1, cRow2, cRow3]

/-- C3 counterexample: with the square-footage dimension active and all
eligible rows sharing `Square_Feet = 100`, the dimension's distance
contribution is NOT 0 as the claim states: the zero standard deviation makes
the z-scores `0 / 0 = NaN` and the contribution is NaN for every row (shown
here on the first row of a concrete dataset). -/
theorem claim_C3_counterexample :
    (∀ y ∈ sqftVals cDf "Building", y = 100) ∧
    truthy (some 50) = true ∧
    sqftContribution (sqftVals cDf "Building") (some 50) cRow1 ≠ Fq.num 0 ∧
    sqftContribution (sqftVals cDf "Building") (some 50) cRow1 = Fq.nan := by
  have hxs : sqftVals cDf "Building" = [100, 100, 100] := by decide
  have hvar : sampleVar [100, 100, 100] = Fq.num 0 := by
    rw [sampleVar]
    norm_num [mean]
  have hnd : normDiffSq [100, 100, 100] 100 50 = Fq.nan := by
    rw [normDiffSq, hvar]
    norm_num
  have ht : truthy (some 50) = true := by decide
  have hcontrib : sqftContribution (sqftVals cDf "Building") (some 50) cRow1
      = Fq.nan := by
    rw [sqftContribution, ht, if_pos rfl, hxs]
    have h1 : cRow1.square_feet.getD 0 = 100 := by decide
    have h2 : (some (50 : ℚ)).getD 0 = 50 := by decide
    rw [h1, h2]
    exact hnd
  refine ⟨by rw [hxs]; decide, ht, ?_, hcontrib⟩
  rw [hcontrib]
  decide

/-- C3 amended: when an active dimension has a constant column over the
narrowed set, normalization does not raise, but the dimension's contribution
(and with it every row's distance) is NaN rather than 0; `nsmallest` then
returns the first `min(k, n)` narrowed rows in stable original order, so the
returned neighbours coincide with what a 0-contribution would select only
when no other dimension could have discriminated. -/
theorem claim_C3_amended (df : List Row) (pt : String) (q1 q2 : Option ℚ)
    (k : ℕ) (sel : List ℕ)
    (hconst : (truthy q1 = true ∧ ∃ c, ∀ y ∈ sqftVals df pt, y = c) ∨
              (truthy q2 = true ∧ ∃ c, ∀ y ∈ valVals df pt, y = c))
    (hne : narrowedRows df pt ≠ []) :
    (∀ r ∈ narrowedRows df pt, queryDist df pt q1 q2 r = Fq.nan) ∧
    closestCases df pt q1 q2 k = (narrowedRows df pt).take k ∧
    find_similar_cases df pt q1 q2 k sel =
      (some (displayFrame ((narrowedRows df pt).take k)),
       some (meanFq (((narrowedRows df pt).take k).filterMap
         (fun r => r.fees_paid_clean)))) := by
  have hact : (truthy q1 || truthy q2) = true := by
    rcases hconst with ⟨h1, -⟩ | ⟨h2, -⟩
    · rw [h1]; rfl
    · rw [h2]; simp
  have hnan : ∀ r : Row, queryDist df pt q1 q2 r = Fq.nan := by
    intro r
    rcases hconst with ⟨h1, c, hc⟩ | ⟨h2, c, hc⟩
    · exact rowDistSq_nan_left r h1 (normDiffSq_nan_of_const hc _ _)
    · exact rowDistSq_nan_right r h2 (normDiffSq_nan_of_const hc _ _)
  have hclosest : closestCases df pt q1 q2 k = (narrowedRows df pt).take k := by
    rw [closestCases]
    exact nsmallestBy_const_nan (fun r _ => hnan r)
  refine ⟨fun r _ => hnan r, hclosest, ?_⟩
  rw [find_similar_cases_weighted df pt q1 q2 k sel hact hne, hclosest]

/-- C10: the shape of the returned neighbour records depends on the branch:
with an active dimension the frame holds exactly the five display columns with
the raw (uncleaned) `Valuation` and `Fees_Paid` strings, while the fee is
computed from the cleaned numeric column; with no active dimension the sampled
rows are returned with all dataset columns. -/
theorem claim_C10_result_shape (df : List Row) (pt : String)
    (q1 q2 : Option ℚ) (k : ℕ) (sel : List ℕ) :
    ((truthy q1 || truthy q2) = true →
      (find_similar_cases df pt q1 q2 k sel).1 = none ∨
      ((find_similar_cases df pt q1 q2 k sel).1
          = some (displayFrame (closestCases df pt q1 q2 k)) ∧
        (displayFrame (closestCases df pt q1 q2 k)).cols = displayCols ∧
        (find_similar_cases df pt q1 q2 k sel).2
          = some (meanFq ((closestCases df pt q1 q2 k).filterMap
              (fun r => r.fees_paid_clean))))) ∧
    (truthy q1 = false → truthy q2 = false →
      (find_similar_cases df pt q1 q2 k sel).1 = none ∨
      ((find_similar_cases df pt q1 q2 k sel).1
          = some (fullFrame (sel.filterMap (fun i => (eligibleRows df pt)[i]?))) ∧
        (fullFrame (sel.filterMap (fun i => (eligibleRows df pt)[i]?))).cols
          = allCols)) ∧
    (∀ r : Row, displayCells r =
      [Cell.cs r.zip_code, Cell.cs r.permit_type, Cell.cq r.square_feet,
       Cell.cs r.valuation, Cell.cs r.fees_paid]) := by
  refine ⟨?_, ?_, fun r => rfl⟩
  · intro hact
    by_cases hnar : narrowedRows df pt = []
    · left
      rw [find_similar_cases_empty_narrowed df pt q1 q2 k sel hact hnar]
    · right
      rw [find_similar_cases_weighted df pt q1 q2 k sel hact hnar]
      exact ⟨rfl, rfl, rfl⟩
  · intro h1 h2
    by_cases helig : eligibleRows df pt = []
    · left
      rw [find_similar_cases, helig]
      rfl
    · right
      rw [find_similar_cases_unweighted df pt q1 q2 k sel h1 h2 helig]
      exact ⟨rfl, rfl⟩

/-! ## Mutation model for the frame-effect claim

pandas object identity is made explicit: a store holds the tables of all live
data frames, a frame value is an index into the store, boolean-mask filtering
and `dropna` allocate fresh copies (their documented behaviour), and column
assignment `df[col] = ...` mutates the addressed table in place.  The scratch
columns `SqFt_Norm`, `Valuation_Norm` and `Distance` of lines 47-58 become
fields of the stored rows. -/

/-- The square of a z-score against the column `xs`: NaN when the standard
deviation is undefined or zero.  Used as the exactly-representable content of
the scratch normalization columns (only squared differences of z-scores feed
the distance, so no information relevant to any theorem is lost). -/
def zNormSq (xs : List ℚ) (x : ℚ) : Fq :=
  match sampleVar xs with
  | Fq.nan => Fq.nan
  | Fq.num v => if v = 0 then Fq.nan else Fq.num ((x - mean xs) ^ 2 / v)

/-- A stored row: the dataset columns plus the three scratch columns the
function creates (absent until assigned). -/
structure SRow where
  base : Row
  sqftNorm : Option Fq
  valNorm : Option Fq
  distance : Option Fq
deriving DecidableEq, Repr

/-- A dataset row as initially loaded: no scratch columns. -/
def SRow.ofRow (r : Row) : SRow := ⟨r, none, none, none⟩

/-- The store of all live data-frame tables; a frame is an index into it. -/
abbrev Store := List (List SRow)

def Store.read (s : Store) (i : ℕ) : List SRow := (s[i]?).getD []

def Store.alloc (s : Store) (t : List SRow) : Store × ℕ := (s ++ [t], s.length)

def Store.write (s : Store) (i : ℕ) (t : List SRow) : Store := s.set i t

/-- pandas boolean-mask indexing and `dropna`: produce a fresh copy. -/
def filterCopy (s : Store) (i : ℕ) (p : SRow → Bool) : Store × ℕ :=
  Store.alloc s ((Store.read s i).filter p)

/-- pandas column assignment `df[col] = ...`: in-place update of the addressed
table. -/
def setColumn (s : Store) (i : ℕ) (f : SRow → SRow) : Store :=
  Store.write s i ((Store.read s i).map f)

/-- Lines 29-58 with object identity explicit: the filtering steps allocate
copies, the three scratch-column assignments mutate only the narrowed copy,
and the function never writes to the caller's frame. -/
def find_similar_cases_state (s0 : Store) (dfRef : ℕ) (pt : String)
    (q1 q2 : Option ℚ) : Store :=
  let p1 := filterCopy s0 dfRef (fun r => decide (r.base.permit_type = some pt))
  let p2 := filterCopy p1.1 p1.2 (fun r => !r.base.fees_paid_clean.isNone)
  if (Store.read p2.1 p2.2).isEmpty then p2.1
  else if ((if truthy q1 then (1 : ℚ) else 0) + (if truthy q2 then (1 : ℚ) else 0)) = 0 then p2.1
  else
    let p3 := filterCopy p2.1 p2.2
      (fun r => !r.base.square_feet.isNone && !r.base.valuation_clean.isNone)
    if (Store.read p3.1 p3.2).isEmpty then p3.1
    else
      let xs := (Store.read p3.1 p3.2).filterMap (fun r => r.base.square_feet)
      let vs := (Store.read p3.1 p3.2).filterMap (fun r => r.base.valuation_clean)
      let s4 := setColumn p3.1 p3.2
        (fun r => { r with sqftNorm := some (zNormSq xs (r.base.square_feet.getD 0)) })
      let s5 := setColumn s4 p3.2
        (fun r => { r with valNorm := some (zNormSq vs (r.base.valuation_clean.getD 0)) })
      let s6 := setColumn s5 p3.2
        (fun r => { r with distance := some (rowDistSq xs vs q1 q2 r.base) })
      s6

theorem Store.read_append_lt (s : Store) (t : List SRow) (i : ℕ)
    (h : i < s.length) : Store.read (s ++ [t]) i = Store.read s i := by
  rw [Store.read, Store.read, List.getElem?_append_left h]

theorem Store.read_write_ne (s : Store) (j : ℕ) (t : List SRow) (i : ℕ)
    (h : i ≠ j) : Store.read (Store.write s j t) i = Store.read s i := by
  rw [Store.write, Store.read, Store.read, List.getElem?_set_ne (fun hc => h hc.symm)]

theorem setColumn_read_ne (s : Store) (j : ℕ) (f : SRow → SRow) (i : ℕ)
    (h : i ≠ j) : Store.read (setColumn s j f) i = Store.read s i :=
  Store.read_write_ne s j _ i h

theorem setColumn_length (s : Store) (j : ℕ) (f : SRow → SRow) :
    (setColumn s j f).length = s.length := by
  rw [setColumn, Store.write, List.length_set]

/-- C8: the estimator does not mutate the caller's data frame: the scratch
columns are written only to privately allocated copies, and the table the
caller's frame addresses is unchanged by the call, on every store, dataset and
query. -/
theorem claim_C8_no_mutation (s0 : Store) (dfRef : ℕ) (pt : String)
    (q1 q2 : Option ℚ) (hdf : dfRef < s0.length) :
    Store.read (find_similar_cases_state s0 dfRef pt q1 q2) dfRef
      = Store.read s0 dfRef := by
  rw [find_similar_cases_state]
  simp only [filterCopy, Store.alloc]
  have hlen1 : dfRef < (s0 ++ [(Store.read s0 dfRef).filter
      (fun r => decide (r.base.permit_type = some pt))]).length := by
    rw [List.length_append]
    omega
  have hr1 : Store.read (s0 ++ [(Store.read s0 dfRef).filter
      (fun r => decide (r.base.permit_type = some pt))]) dfRef
      = Store.read s0 dfRef := Store.read_append_lt s0 _ dfRef hdf
  set s1 : Store := s0 ++ [(Store.read s0 dfRef).filter
      (fun r => decide (r.base.permit_type = some pt))] with hs1
  set s2 : Store := s1 ++ [(Store.read s1 s0.length).filter
      (fun r => !r.base.fees_paid_clean.isNone)] with hs2
  have hlen2 : dfRef < s2.length := by
    rw [hs2, List.length_append]
    omega
  have hr2 : Store.read s2 dfRef = Store.read s0 dfRef := by
    rw [hs2, Store.read_append_lt s1 _ dfRef hlen1, hr1]
  by_cases hC1 : ((Store.read s2 s1.length).isEmpty = true)
  · rw [if_pos hC1]
    exact hr2
  · rw [if_neg hC1]
    by_cases hC2 : ((if truthy q1 then (1 : ℚ) else 0) + (if truthy q2 then (1 : ℚ) else 0)) = 0
    · rw [if_pos hC2]
      exact hr2
    · rw [if_neg hC2]
      set s3 : Store := s2 ++ [(Store.read s2 s1.length).filter
        (fun r => !r.base.square_feet.isNone && !r.base.valuation_clean.isNone)] with hs3
      have hr3 : Store.read s3 dfRef = Store.read s0 dfRef := by
        rw [hs3, Store.read_append_lt s2 _ dfRef hlen2, hr2]
      have hne3 : dfRef ≠ s2.length := by
        rw [hs2, List.length_append, hs1, List.length_append]
        omega
      by_cases hC3 : ((Store.read s3 s2.length).isEmpty = true)
      · rw [if_pos hC3]
        exact hr3
      · rw [if_neg hC3]
        rw [setColumn_read_ne _ _ _ _ hne3, setColumn_read_ne _ _ _ _ hne3,
          setColumn_read_ne _ _ _ _ hne3]
        exact hr3

/-! ## Concrete witnesses -/

def wRow1 : Row :=
  ⟨some "75038", some "Electrical", some 1000, some "$10,000", some "$500",
   some 10000, some 500⟩

def wRow2 : Row :=
  ⟨some "75039", some "Electrical", some 2000, some "$20,000", some "$600",
   some 20000, some 600⟩

def wRow3 : Row :=
  ⟨some "75040", some "Electrical", some 3000, some "$30,000", some "$700",
   some 30000, some 700⟩

def wDf : List Row := [wRow1, wRow2, wRow3]

theorem claim_C1_distance_formula_witness :
    (truthy (some (2000 : ℚ)) || truthy none) = true ∧
    (1000 : ℚ) ∈ [(1000 : ℚ), 2000, 3000] ∧
    (10000 : ℚ) ∈ [(10000 : ℚ), 20000, 30000] ∧
    wRow1.square_feet = some 1000 ∧
    wRow1.valuation_clean = some 10000 ∧
    (calculate_distance [1000, 2000, 3000] [10000, 20000, 30000]
        (some 2000) none 1000 10000
      = spec_distance [1000, 2000, 3000] [10000, 20000, 30000]
        (some 2000) none 1000 10000 ∧
     calculate_distance [1000, 2000, 3000] [10000, 20000, 30000]
        (some 2000) none 1000 10000
      = FR.sqrt (toFR (rowDistSq [1000, 2000, 3000] [10000, 20000, 30000]
        (some 2000) none wRow1))) :=
  ⟨by decide, by decide, by decide, by decide, by decide,
   claim_C1_distance_formula [1000, 2000, 3000] [10000, 20000, 30000]
     (some 2000) none wRow1 1000 10000
     (by decide) (by decide) (by decide) (by decide) (by decide)⟩

theorem claim_C2_unweighted_branch_witness :
    truthy (none : Option ℚ) = false ∧
    eligibleRows wDf "Electrical" ≠ [] ∧
    ([2, 0] : List ℕ).length = min 2 (eligibleRows wDf "Electrical").length ∧
    ([2, 0] : List ℕ).Nodup ∧
    (∀ i ∈ ([2, 0] : List ℕ), i < (eligibleRows wDf "Electrical").length) ∧
    find_similar_cases wDf "Electrical" none none 2 [2, 0] =
      (some (fullFrame (([2, 0] : List ℕ).filterMap
        (fun i => (eligibleRows wDf "Electrical")[i]?))),
       some (Fq.num (mean ((eligibleRows wDf "Electrical").filterMap
         (fun r => r.fees_paid_clean))))) :=
  ⟨by decide, by decide, by decide, by decide, by decide,
   (claim_C2_unweighted_branch wDf "Electrical" none none 2 [2, 0]
     (by decide) (by decide) (by decide) (by decide) (by decide) (by decide)).1⟩

theorem claim_C3_amended_witness :
    truthy (some (50 : ℚ)) = true ∧
    (∀ y ∈ sqftVals cDf "Building", y = 100) ∧
    narrowedRows cDf "Building" ≠ [] ∧
    closestCases cDf "Building" (some 50) none 2
      = (narrowedRows cDf "Building").take 2 :=
  ⟨by decide, by decide, by decide,
   (claim_C3_amended cDf "Building" (some 50) none 2 []
     (Or.inl ⟨by decide, 100, by decide⟩) (by decide)).2.1⟩

theorem claim_C4_joint_narrowing_witness :
    (truthy (some (2000 : ℚ)) || truthy none) = true ∧
    (∀ r ∈ closestCases wDf "Electrical" (some 2000) none 2,
      r.square_feet ≠ none ∧ r.valuation_clean ≠ none) :=
  ⟨by decide,
   (claim_C4_joint_narrowing wDf "Electrical" (some 2000) none 2 []
     (by decide)).2.1⟩

theorem claim_C5_k_smallest_selection_witness :
    (truthy (some (2000 : ℚ)) || truthy none) = true ∧
    narrowedRows wDf "Electrical" ≠ [] ∧
    (closestCases wDf "Electrical" (some 2000) none 2).length
      = min 2 (narrowedRows wDf "Electrical").length :=
  ⟨by decide, by decide,
   (claim_C5_k_smallest_selection wDf "Electrical" (some 2000) none 2 []
     (by decide) (by decide)).2.1⟩

theorem claim_C7_no_match_no_result_witness :
    (∀ r ∈ wDf, ¬(r.permit_type = some "Plumbing" ∧ r.fees_paid_clean ≠ none)) ∧
    find_similar_cases wDf "Plumbing" (some 1500) none 5 [] = (none, none) :=
  ⟨by decide,
   claim_C7_no_match_no_result wDf "Plumbing" (some 1500) none 5 [] (by decide)⟩

theorem claim_C8_no_mutation_witness :
    0 < ([wDf.map SRow.ofRow] : Store).length ∧
    Store.read (find_similar_cases_state [wDf.map SRow.ofRow] 0 "Electrical"
      (some 2000) none) 0 = Store.read [wDf.map SRow.ofRow] 0 :=
  ⟨by decide,
   claim_C8_no_mutation [wDf.map SRow.ofRow] 0 "Electrical" (some 2000) none
     (by decide)⟩

theorem claim_C9_absent_together_witness :
    1 ≤ 2 ∧
    ([0, 1] : List ℕ).length = min 2 (eligibleRows wDf "Electrical").length ∧
    (∀ i ∈ ([0, 1] : List ℕ), i < (eligibleRows wDf "Electrical").length) ∧
    (find_similar_cases wDf "Electrical" none none 2 [0, 1] = (none, none) ∨
     (∃ fr q, find_similar_cases wDf "Electrical" none none 2 [0, 1]
        = (some fr, some (Fq.num q)) ∧ fr.rows ≠ [])) :=
  ⟨by decide, by decide, by decide,
   claim_C9_absent_together wDf "Electrical" none none 2 [0, 1]
     (by decide) (fun _ _ => ⟨by decide, by decide⟩)⟩

theorem claim_C10_result_shape_witness :
    (truthy (some (2000 : ℚ)) || truthy none) = true ∧
    ((find_similar_cases wDf "Electrical" (some 2000) none 2 []).1 = none ∨
     ((find_similar_cases wDf "Electrical" (some 2000) none 2 []).1
        = some (displayFrame (closestCases wDf "Electrical" (some 2000) none 2)) ∧
      (displayFrame (closestCases wDf "Electrical" (some 2000) none 2)).cols
        = displayCols ∧
      (find_similar_cases wDf "Electrical" (some 2000) none 2 []).2
        = some (meanFq ((closestCases wDf "Electrical" (some 2000) none 2).filterMap
            (fun r => r.fees_paid_clean))))) :=
  ⟨by decide,
   (claim_C10_result_shape wDf "Electrical" (some 2000) none 2 []).1 (by decide)⟩

end IrvingPermits
